import Mathlib

/-!
# cdebug: pkg/containerd/client.go

A shallow embedding of the containerd client wrapper: container teardown
(`ContainerRemoveEx`, `taskRemove`, `containerRemove`), image pull with a
progress reporter (`ImagePullEx`) and socket address detection
(`detectAddress`).

The Runtime Service (the containerd client library) is an external
collaborator.  It is modelled as a record of state-passing functions over an
arbitrary world state `σ`; every call the wrapper makes is appended, with its
outcome, to an event log, so that properties about which calls are made, in
which order and with which options, can be stated.
-/

namespace Containerd

/-! ## Errors -/

/-- A Go `error` value: its message and whether `errdefs.IsNotFound` holds of it. -/
structure Err where
  msg : String
  notFound : Bool
deriving DecidableEq, Repr

/-- Go `errors.New`: a fresh error, which is not a NotFound error. -/
def errorsNew (msg : String) : Err := ⟨msg, false⟩

/-- The `errdefs.IsNotFound` classification. -/
def IsNotFound (e : Err) : Bool := e.notFound

/-- The error of `taskRemove` for an active task without force (client.go:139). -/
def activeContainerError : Err :=
  errorsNew "cannot remove active container - stop the container first or try force removal instead"

/-- The error of `detectAddress` when no candidate is accessible (client.go:170). -/
def cannotDetectAddressError : Err :=
  errorsNew "cannot detect (good enough) containerd address"

/-! ## Task status -/

/-- The containerd `ProcessStatus` is a string type. -/
abbrev ProcessStatus := String

def Running : ProcessStatus := "running"
def Created : ProcessStatus := "created"
def Stopped : ProcessStatus := "stopped"
def Paused : ProcessStatus := "paused"
def Pausing : ProcessStatus := "pausing"
def Unknown : ProcessStatus := "unknown"

/-! ## Runtime Service and event log -/

/-- An image handle returned by the Runtime Service (nil is `none`). -/
abbrev Image := Option Nat

/-- One call made by the wrapper, together with the outcome it got. -/
inductive Event where
  /-- The call `cont.Task(ctx, cio.Load)`; `none` is a nil error. -/
  | taskLookup (err : Option Err)
  /-- The call `task.Status(ctx)`. -/
  | taskStatus (res : Except Err ProcessStatus)
  /-- The call `task.Delete(ctx, ...)`; `kill` tells whether `WithProcessKill` was passed. -/
  | taskDelete (kill : Bool) (err : Option Err)
  /-- The call `cont.Image(ctx)`. -/
  | imageLookup (err : Option Err)
  /-- The call `cont.Delete(ctx, opts...)`; `cleanup` tells whether `WithSnapshotCleanup` was passed. -/
  | containerDelete (cleanup : Bool) (err : Option Err)
  /-- The call `context.WithCancel(ctx)`. -/
  | withCancel
  /-- The call `content.NewJobs(ref)`. -/
  | newJobs (ref : String)
  /-- The statement `go func() ... ShowProgress ...; close(progressCh)`. -/
  | goShowProgress
  /-- The call `c.Pull(ctx, ref, WithPullUnpack, WithPlatform(platform))`. -/
  | pull (ref : String) (platform : String) (image : Image) (err : Option Err)
  /-- The call `stopProgress()`, cancelling the reporter's context. -/
  | stopProgress
  /-- The receive `<-progressCh`, the reporter's completion signal. -/
  | recvProgressCh
deriving Repr

/-- The Runtime Service: each operation takes the world state and returns its
outcome and the next world state. -/
structure RuntimeService (σ : Type) where
  task : σ → Option Err × σ
  status : σ → Except Err ProcessStatus × σ
  taskDelete : Bool → σ → Option Err × σ
  image : σ → Option Err × σ
  containerDelete : Bool → σ → Option Err × σ
  pull : String → String → σ → (Image × Option Err) × σ

/-- The outcome of a run of a wrapper function returning `error`. -/
structure Run (σ : Type) where
  err : Option Err
  state : σ
  log : List Event

/-! ## Container teardown -/

/-- The function `containerRemove` (client.go:149-156). -/
def containerRemove {σ : Type} (rt : RuntimeService σ) (s : σ) (log : List Event) : Run σ :=
  let r := rt.image s
  let log1 := log ++ [Event.imageLookup r.1]
  -- opts = append(opts, WithSnapshotCleanup) when err == nil
  let opts : Bool := r.1.isNone
  let d := rt.containerDelete opts r.2
  ⟨d.1, d.2, log1 ++ [Event.containerDelete opts d.1]⟩

/-- The function `taskRemove` (client.go:121-147). -/
def taskRemove {σ : Type} (rt : RuntimeService σ) (force : Bool) (s : σ) (log : List Event) :
    Run σ :=
  let r := rt.status s
  let log1 := log ++ [Event.taskStatus r.1]
  match r.1 with
  | Except.error err => ⟨some err, r.2, log1⟩
  | Except.ok status =>
    if status = Created ∨ status = Stopped then
      let d := rt.taskDelete false r.2
      let log2 := log1 ++ [Event.taskDelete false d.1]
      match d.1 with
      | some err => if !IsNotFound err then ⟨some err, d.2, log2⟩ else ⟨none, d.2, log2⟩
      | none => ⟨none, d.2, log2⟩
    else if !force then
      ⟨some activeContainerError, r.2, log1⟩
    else
      let d := rt.taskDelete true r.2
      let log2 := log1 ++ [Event.taskDelete true d.1]
      match d.1 with
      | some err => if !IsNotFound err then ⟨some err, d.2, log2⟩ else ⟨none, d.2, log2⟩
      | none => ⟨none, d.2, log2⟩

/-- The method `ContainerRemoveEx` (client.go:69-87). -/
def ContainerRemoveEx {σ : Type} (rt : RuntimeService σ) (force : Bool) (s : σ) : Run σ :=
  let r := rt.task s
  let log1 := [Event.taskLookup r.1]
  match r.1 with
  | some err =>
    if IsNotFound err then containerRemove rt r.2 log1
    else ⟨some err, r.2, log1⟩
  | none =>
    let t := taskRemove rt force r.2 log1
    match t.err with
    | some err => ⟨some err, t.state, t.log⟩
    | none => containerRemove rt t.state t.log

/-! ## Image pull -/

/-- Go `strings.HasPrefix` on the characters of the strings. -/
def hasPrefixChars : List Char → List Char → Bool
  | _, [] => true
  | [], _ :: _ => false
  | c :: cs, p :: ps => c == p && hasPrefixChars cs ps

/-- Go `strings.Contains` on the characters of the strings: some suffix of `s`
starts with `sub`. -/
def containsChars : List Char → List Char → Bool
  | [], sub => hasPrefixChars [] sub
  | c :: cs, sub => hasPrefixChars (c :: cs) sub || containsChars cs sub

/-- Go `strings.Contains`. -/
def stringsContains (s sub : String) : Bool := containsChars s.data sub.data

/-- The reference normalisation at the head of `ImagePullEx` (client.go:94-96). -/
def normalizeRef (ref : String) : String :=
  if !stringsContains ref ":" then ref ++ ":latest" else ref

/-- The outcome of a run of `ImagePullEx`: the returned pair, the world state
and the calls made on the caller's path. -/
structure PullRun (σ : Type) where
  image : Image
  err : Option Err
  state : σ
  log : List Event

/-- The method `ImagePullEx` (client.go:89-119), as seen from the caller's
path.  The reporter runs in its own goroutine; on the caller's path only its
start, the cancellation of its context and the receive on `progressCh`
appear. -/
def ImagePullEx {σ : Type} (rt : RuntimeService σ) (ref platform : String) (s : σ) : PullRun σ :=
  let ref1 := normalizeRef ref
  let log1 := [Event.withCancel, Event.newJobs ref1, Event.goShowProgress]
  let r := rt.pull ref1 platform s
  let log2 := log1 ++ [Event.pull ref1 platform r.1.1 r.1.2, Event.stopProgress]
  match r.1.2 with
  | some err => ⟨r.1.1, some err, r.2, log2⟩
  | none => ⟨r.1.1, none, r.2, log2 ++ [Event.recvProgressCh]⟩

/-! ## Address detection -/

structure Options where
  Address : String
  Namespace : String
deriving DecidableEq, Repr

def wellKnownAddresses : List String :=
  ["/run/containerd/containerd.sock", "/var/run/docker/containerd/containerd.sock"]

/-- Go `strings.TrimPrefix`: `s` without the leading `p` when it has it, else `s`. -/
def stringsTrimPrefix (s p : String) : String :=
  if hasPrefixChars s.data p.data then ⟨s.data.drop p.data.length⟩ else s

/-- The loop of `detectAddress` (client.go:164-170).  The probe
`isSocketAccessible` is a parameter: `acc addr` holds when it returns nil. -/
def detectLoop (acc : String → Bool) : List String → Except Err String
  | [] => Except.error cannotDetectAddressError
  | addr :: rest => if acc addr then Except.ok addr else detectLoop acc rest

/-- The function `detectAddress` (client.go:158-171). -/
def detectAddress (acc : String → Bool) (opts : Options) : Except Err String :=
  let addresses :=
    if opts.Address.length > 0 then [stringsTrimPrefix opts.Address "unix://"]
    else wellKnownAddresses
  detectLoop acc addresses

/-! ## Observations on event logs -/

/-- The task-delete calls of a log, in order: kill option and outcome. -/
def taskDeletes : List Event → List (Bool × Option Err)
  | [] => []
  | Event.taskDelete k e :: rest => (k, e) :: taskDeletes rest
  | _ :: rest => taskDeletes rest

/-- The container-delete calls of a log, in order: cleanup option and outcome. -/
def containerDeletes : List Event → List (Bool × Option Err)
  | [] => []
  | Event.containerDelete c e :: rest => (c, e) :: containerDeletes rest
  | _ :: rest => containerDeletes rest

/-- The image lookups of a log, in order. -/
def imageLookups : List Event → List (Option Err)
  | [] => []
  | Event.imageLookup e :: rest => e :: imageLookups rest
  | _ :: rest => imageLookups rest

/-- The task-status calls of a log, in order. -/
def taskStatuses : List Event → List (Except Err ProcessStatus)
  | [] => []
  | Event.taskStatus r :: rest => r :: taskStatuses rest
  | _ :: rest => taskStatuses rest

/-! ## Example runtimes -/

/-- A scripted Runtime Service whose world state counts the calls made. -/
def scripted (task : Option Err) (status : Except Err ProcessStatus)
    (taskDelete : Bool → Option Err) (image : Option Err)
    (containerDelete : Bool → Option Err) (pull : Image × Option Err) : RuntimeService Nat where
  task := fun n => (task, n + 1)
  status := fun n => (status, n + 1)
  taskDelete := fun k n => (taskDelete k, n + 1)
  image := fun n => (image, n + 1)
  containerDelete := fun c n => (containerDelete c, n + 1)
  pull := fun _ _ n => (pull, n + 1)

/-- A NotFound error. -/
def errNotFound : Err := ⟨"not found", true⟩

/-- Some error that is not NotFound. -/
def errUnavailable : Err := ⟨"unavailable", false⟩

/-- A container with a running task; every call succeeds. -/
def rtRunning : RuntimeService Nat :=
  scripted none (Except.ok Running) (fun _ => none) none (fun _ => none) (some 1, none)

/-- A container with a stopped task; every call succeeds. -/
def rtStopped : RuntimeService Nat :=
  scripted none (Except.ok Stopped) (fun _ => none) none (fun _ => none) (some 1, none)

/-- A container without a task whose image is gone and whose delete fails. -/
def rtNoTask : RuntimeService Nat :=
  scripted (some errNotFound) (Except.ok Running) (fun _ => none) (some errNotFound)
    (fun _ => some errUnavailable) (none, none)

/-- A container with a stopped task whose container delete returns NotFound. -/
def rtContainerGone : RuntimeService Nat :=
  scripted none (Except.ok Stopped) (fun _ => none) none (fun _ => some errNotFound) (none, none)

/-- A container with a running task whose task delete returns NotFound. -/
def rtTaskGone : RuntimeService Nat :=
  scripted none (Except.ok Running) (fun _ => some errNotFound) none (fun _ => none) (none, none)

/-- A container with a running task whose forced task delete fails. -/
def rtKillFails : RuntimeService Nat :=
  scripted none (Except.ok Running) (fun _ => some errUnavailable) none (fun _ => none)
    (none, none)

/-- The error outcome of a call, if it failed. -/
def Event.failure : Event → Option Err
  | Event.taskLookup e => e
  | Event.taskStatus (Except.error e) => some e
  | Event.taskStatus (Except.ok _) => none
  | Event.taskDelete _ e => e
  | Event.imageLookup e => e
  | Event.containerDelete _ e => e
  | Event.pull _ _ _ e => e
  | _ => none

/-- A Runtime Service whose pull fails. -/
def rtPullFails : RuntimeService Nat :=
  scripted none (Except.ok Running) (fun _ => none) none (fun _ => none)
    (none, some errUnavailable)

/-- A container with a stopped task whose image lookup fails; every other
call succeeds. -/
def rtStoppedNoImage : RuntimeService Nat :=
  scripted none (Except.ok Stopped) (fun _ => none) (some errNotFound) (fun _ => none)
    (none, none)

/-- A Runtime Service that knows the image `alpine:latest` only: the pull of any
other reference fails with NotFound. -/
def rtPullTagged : RuntimeService Nat where
  task := fun n => (none, n + 1)
  status := fun n => (Except.ok Running, n + 1)
  taskDelete := fun _ n => (none, n + 1)
  image := fun n => (none, n + 1)
  containerDelete := fun _ n => (none, n + 1)
  pull := fun ref _ n =>
    if ref = "alpine:latest" then ((some 7, none), n + 1) else ((none, some errNotFound), n + 1)

/-! ## The shape of a teardown run -/

/-- Every run of `ContainerRemoveEx` has one of six shapes. -/
theorem ContainerRemoveEx_shape {σ : Type} (rt : RuntimeService σ) (force : Bool) (s : σ) :
    (∃ e, (ContainerRemoveEx rt force s).log = [Event.taskLookup (some e)] ∧
      IsNotFound e = false ∧ (ContainerRemoveEx rt force s).err = some e) ∨
    (∃ e i c, (ContainerRemoveEx rt force s).log =
        [Event.taskLookup (some e), Event.imageLookup i, Event.containerDelete i.isNone c] ∧
      IsNotFound e = true ∧ (ContainerRemoveEx rt force s).err = c) ∨
    (∃ e, (ContainerRemoveEx rt force s).log =
        [Event.taskLookup none, Event.taskStatus (Except.error e)] ∧
      (ContainerRemoveEx rt force s).err = some e) ∨
    (∃ st, (ContainerRemoveEx rt force s).log =
        [Event.taskLookup none, Event.taskStatus (Except.ok st)] ∧
      (ContainerRemoveEx rt force s).err = some activeContainerError) ∨
    (∃ st k e, (ContainerRemoveEx rt force s).log =
        [Event.taskLookup none, Event.taskStatus (Except.ok st), Event.taskDelete k (some e)] ∧
      IsNotFound e = false ∧ (ContainerRemoveEx rt force s).err = some e) ∨
    (∃ st k d i c, (ContainerRemoveEx rt force s).log =
        [Event.taskLookup none, Event.taskStatus (Except.ok st), Event.taskDelete k d,
          Event.imageLookup i, Event.containerDelete i.isNone c] ∧
      (d = none ∨ ∃ e, d = some e ∧ IsNotFound e = true) ∧
      (ContainerRemoveEx rt force s).err = c) := by
  rcases hT : rt.task s with ⟨t, s1⟩
  cases t with
  | some e =>
    cases hnf : IsNotFound e with
    | false =>
      left
      exact ⟨e, by simp [ContainerRemoveEx, hT, hnf], hnf, by simp [ContainerRemoveEx, hT, hnf]⟩
    | true =>
      right; left
      exact ⟨e, (rt.image s1).1, (rt.containerDelete (rt.image s1).1.isNone (rt.image s1).2).1,
        by simp [ContainerRemoveEx, hT, hnf, containerRemove], hnf,
        by simp [ContainerRemoveEx, hT, hnf, containerRemove]⟩
  | none =>
    right; right
    rcases hS : rt.status s1 with ⟨r, s2⟩
    cases r with
    | error e =>
      left
      exact ⟨e, by simp [ContainerRemoveEx, taskRemove, hT, hS],
        by simp [ContainerRemoveEx, taskRemove, hT, hS]⟩
    | ok st =>
      right
      by_cases hcs : st = Created ∨ st = Stopped
      · right
        rcases hD : rt.taskDelete false s2 with ⟨d, s3⟩
        cases d with
        | none =>
          right
          exact ⟨st, false, none, (rt.image s3).1,
            (rt.containerDelete (rt.image s3).1.isNone (rt.image s3).2).1,
            by simp [ContainerRemoveEx, taskRemove, hT, hS, hcs, hD, containerRemove],
            Or.inl rfl,
            by simp [ContainerRemoveEx, taskRemove, hT, hS, hcs, hD, containerRemove]⟩
        | some e =>
          cases hnf : IsNotFound e with
          | false =>
            left
            exact ⟨st, false, e, by simp [ContainerRemoveEx, taskRemove, hT, hS, hcs, hD, hnf],
              hnf, by simp [ContainerRemoveEx, taskRemove, hT, hS, hcs, hD, hnf]⟩
          | true =>
            right
            exact ⟨st, false, some e, (rt.image s3).1,
              (rt.containerDelete (rt.image s3).1.isNone (rt.image s3).2).1,
              by simp [ContainerRemoveEx, taskRemove, hT, hS, hcs, hD, hnf, containerRemove],
              Or.inr ⟨e, rfl, hnf⟩,
              by simp [ContainerRemoveEx, taskRemove, hT, hS, hcs, hD, hnf, containerRemove]⟩
      · cases force with
        | false =>
          left
          exact ⟨st, by simp [ContainerRemoveEx, taskRemove, hT, hS, hcs],
            by simp [ContainerRemoveEx, taskRemove, hT, hS, hcs]⟩
        | true =>
          right
          rcases hD : rt.taskDelete true s2 with ⟨d, s3⟩
          cases d with
          | none =>
            right
            exact ⟨st, true, none, (rt.image s3).1,
              (rt.containerDelete (rt.image s3).1.isNone (rt.image s3).2).1,
              by simp [ContainerRemoveEx, taskRemove, hT, hS, hcs, hD, containerRemove],
              Or.inl rfl,
              by simp [ContainerRemoveEx, taskRemove, hT, hS, hcs, hD, containerRemove]⟩
          | some e =>
            cases hnf : IsNotFound e with
            | false =>
              left
              exact ⟨st, true, e, by simp [ContainerRemoveEx, taskRemove, hT, hS, hcs, hD, hnf],
                hnf, by simp [ContainerRemoveEx, taskRemove, hT, hS, hcs, hD, hnf]⟩
            | true =>
              right
              exact ⟨st, true, some e, (rt.image s3).1,
                (rt.containerDelete (rt.image s3).1.isNone (rt.image s3).2).1,
                by simp [ContainerRemoveEx, taskRemove, hT, hS, hcs, hD, hnf, containerRemove],
                Or.inr ⟨e, rfl, hnf⟩,
                by simp [ContainerRemoveEx, taskRemove, hT, hS, hcs, hD, hnf, containerRemove]⟩

/-! ## Teardown: active task without force -/

/-- C1: when the task lookup succeeds and the status fetch succeeds with a
status other than Created or Stopped, `ContainerRemoveEx` with `force = false`
returns the "cannot remove active container" error, and the only calls it makes
are the task lookup and the status fetch: no task delete (with or without
kill), no container delete and no image lookup. -/
theorem C1_active_without_force_rejected {σ : Type} (rt : RuntimeService σ) (s : σ)
    (st : ProcessStatus)
    (hTask : (rt.task s).1 = none)
    (hStatus : (rt.status (rt.task s).2).1 = Except.ok st)
    (hActive : st ≠ Created ∧ st ≠ Stopped) :
    (ContainerRemoveEx rt false s).err = some activeContainerError ∧
    (ContainerRemoveEx rt false s).log = [Event.taskLookup none, Event.taskStatus (Except.ok st)] ∧
    taskDeletes (ContainerRemoveEx rt false s).log = [] ∧
    containerDeletes (ContainerRemoveEx rt false s).log = [] ∧
    imageLookups (ContainerRemoveEx rt false s).log = [] := by
  obtain ⟨hc, hs⟩ := hActive
  have hrun : ContainerRemoveEx rt false s =
      ⟨some activeContainerError, (rt.status (rt.task s).2).2,
        [Event.taskLookup none, Event.taskStatus (Except.ok st)]⟩ := by
    simp [ContainerRemoveEx, taskRemove, hTask, hStatus, hc, hs]
  rw [hrun]
  simp [taskDeletes, containerDeletes, imageLookups]

/-- C1 at a container with a running task. -/
theorem C1_active_without_force_rejected_witness :
    (ContainerRemoveEx rtRunning false 0).err = some activeContainerError ∧
    (ContainerRemoveEx rtRunning false 0).log =
      [Event.taskLookup none, Event.taskStatus (Except.ok Running)] ∧
    taskDeletes (ContainerRemoveEx rtRunning false 0).log = [] ∧
    containerDeletes (ContainerRemoveEx rtRunning false 0).log = [] ∧
    imageLookups (ContainerRemoveEx rtRunning false 0).log = [] :=
  C1_active_without_force_rejected rtRunning 0 Running rfl rfl (by decide)

/-! ## Teardown: active task with force -/

/-- C3: when the task lookup succeeds and the status is neither Created nor
Stopped, `ContainerRemoveEx` with `force = true` makes exactly one task-delete
call, with the forced-kill option; when that delete returns success the run is
lookup, status, task delete (kill), image lookup, container delete, in this
order, with exactly one container delete, and the returned error is exactly the
container delete's, so the call succeeds whenever the container delete does. -/
theorem C3_active_with_force_kills_then_deletes {σ : Type} (rt : RuntimeService σ)
    (s s1 s2 s3 s4 s5 : σ) (st : ProcessStatus) (dErr iErr cErr : Option Err)
    (hTask : rt.task s = (none, s1))
    (hStatus : rt.status s1 = (Except.ok st, s2))
    (hActive : st ≠ Created ∧ st ≠ Stopped)
    (hDel : rt.taskDelete true s2 = (dErr, s3))
    (hImg : rt.image s3 = (iErr, s4))
    (hCDel : rt.containerDelete iErr.isNone s4 = (cErr, s5)) :
    taskDeletes (ContainerRemoveEx rt true s).log = [(true, dErr)] ∧
    (dErr = none →
      (ContainerRemoveEx rt true s).log =
        [Event.taskLookup none, Event.taskStatus (Except.ok st), Event.taskDelete true none,
          Event.imageLookup iErr, Event.containerDelete iErr.isNone cErr] ∧
      containerDeletes (ContainerRemoveEx rt true s).log = [(iErr.isNone, cErr)] ∧
      (ContainerRemoveEx rt true s).err = cErr ∧
      (cErr = none → (ContainerRemoveEx rt true s).err = none)) := by
  obtain ⟨hc, hs⟩ := hActive
  cases dErr with
  | none =>
    have hrun : ContainerRemoveEx rt true s =
        ⟨cErr, s5, [Event.taskLookup none, Event.taskStatus (Except.ok st),
          Event.taskDelete true none, Event.imageLookup iErr,
          Event.containerDelete iErr.isNone cErr]⟩ := by
      simp [ContainerRemoveEx, taskRemove, containerRemove, hTask, hStatus, hc, hs, hDel, hImg,
        hCDel]
    rw [hrun]
    simp [taskDeletes, containerDeletes]
  | some e =>
    cases hnf : IsNotFound e with
    | false =>
      have hrun : ContainerRemoveEx rt true s =
          ⟨some e, s3, [Event.taskLookup none, Event.taskStatus (Except.ok st),
            Event.taskDelete true (some e)]⟩ := by
        simp [ContainerRemoveEx, taskRemove, hTask, hStatus, hc, hs, hDel, hnf]
      rw [hrun]
      simp [taskDeletes]
    | true =>
      have hrun : ContainerRemoveEx rt true s =
          ⟨cErr, s5, [Event.taskLookup none, Event.taskStatus (Except.ok st),
            Event.taskDelete true (some e), Event.imageLookup iErr,
            Event.containerDelete iErr.isNone cErr]⟩ := by
        simp [ContainerRemoveEx, taskRemove, containerRemove, hTask, hStatus, hc, hs, hDel, hnf,
          hImg, hCDel]
      rw [hrun]
      simp [taskDeletes]

/-- C3 at a container with a running task. -/
theorem C3_active_with_force_kills_then_deletes_witness :
    taskDeletes (ContainerRemoveEx rtRunning true 0).log = [(true, none)] ∧
    ((none : Option Err) = none →
      (ContainerRemoveEx rtRunning true 0).log =
        [Event.taskLookup none, Event.taskStatus (Except.ok Running), Event.taskDelete true none,
          Event.imageLookup none, Event.containerDelete true none] ∧
      containerDeletes (ContainerRemoveEx rtRunning true 0).log = [(true, none)] ∧
      (ContainerRemoveEx rtRunning true 0).err = none ∧
      ((none : Option Err) = none → (ContainerRemoveEx rtRunning true 0).err = none)) :=
  C3_active_with_force_kills_then_deletes rtRunning 0 1 2 3 4 5 Running none none none
    rfl rfl (by decide) rfl rfl rfl

/-! ## Teardown: created or stopped task -/

/-- C4: when the task lookup succeeds and the status is Created or Stopped,
`ContainerRemoveEx` makes exactly one task-delete call, without the forced-kill
option, for either value of `force`; when that delete succeeds the run is
lookup, status, task delete (no kill), image lookup, container delete, and when
the container delete succeeds too the call returns success.  The run with
`force = true` is the run with `force = false`: same calls, same result. -/
theorem C4_created_or_stopped_deleted_without_kill {σ : Type} (rt : RuntimeService σ)
    (force : Bool) (s s1 s2 s3 s4 s5 : σ) (st : ProcessStatus) (dErr iErr cErr : Option Err)
    (hTask : rt.task s = (none, s1))
    (hStatus : rt.status s1 = (Except.ok st, s2))
    (hIdle : st = Created ∨ st = Stopped)
    (hDel : rt.taskDelete false s2 = (dErr, s3))
    (hImg : rt.image s3 = (iErr, s4))
    (hCDel : rt.containerDelete iErr.isNone s4 = (cErr, s5)) :
    taskDeletes (ContainerRemoveEx rt force s).log = [(false, dErr)] ∧
    (dErr = none →
      (ContainerRemoveEx rt force s).log =
        [Event.taskLookup none, Event.taskStatus (Except.ok st), Event.taskDelete false none,
          Event.imageLookup iErr, Event.containerDelete iErr.isNone cErr] ∧
      (cErr = none → (ContainerRemoveEx rt force s).err = none)) ∧
    ContainerRemoveEx rt true s = ContainerRemoveEx rt false s := by
  have hsame : ∀ f : Bool, ContainerRemoveEx rt f s = ContainerRemoveEx rt false s := by
    intro f
    simp [ContainerRemoveEx, taskRemove, hTask, hStatus, hIdle]
  rw [hsame force]
  refine ⟨?_, ?_, hsame true⟩
  · cases dErr with
    | none =>
      have hrun : ContainerRemoveEx rt false s =
          ⟨cErr, s5, [Event.taskLookup none, Event.taskStatus (Except.ok st),
            Event.taskDelete false none, Event.imageLookup iErr,
            Event.containerDelete iErr.isNone cErr]⟩ := by
        simp [ContainerRemoveEx, taskRemove, containerRemove, hTask, hStatus, hIdle, hDel, hImg,
          hCDel]
      rw [hrun]
      simp [taskDeletes]
    | some e =>
      cases hnf : IsNotFound e with
      | false =>
        have hrun : ContainerRemoveEx rt false s =
            ⟨some e, s3, [Event.taskLookup none, Event.taskStatus (Except.ok st),
              Event.taskDelete false (some e)]⟩ := by
          simp [ContainerRemoveEx, taskRemove, hTask, hStatus, hIdle, hDel, hnf]
        rw [hrun]
        simp [taskDeletes]
      | true =>
        have hrun : ContainerRemoveEx rt false s =
            ⟨cErr, s5, [Event.taskLookup none, Event.taskStatus (Except.ok st),
              Event.taskDelete false (some e), Event.imageLookup iErr,
              Event.containerDelete iErr.isNone cErr]⟩ := by
          simp [ContainerRemoveEx, taskRemove, containerRemove, hTask, hStatus, hIdle, hDel, hnf,
            hImg, hCDel]
        rw [hrun]
        simp [taskDeletes]
  · intro hd
    subst hd
    have hrun : ContainerRemoveEx rt false s =
        ⟨cErr, s5, [Event.taskLookup none, Event.taskStatus (Except.ok st),
          Event.taskDelete false none, Event.imageLookup iErr,
          Event.containerDelete iErr.isNone cErr]⟩ := by
      simp [ContainerRemoveEx, taskRemove, containerRemove, hTask, hStatus, hIdle, hDel, hImg,
        hCDel]
    rw [hrun]
    simp

/-- C4 at a container with a stopped task, called with force. -/
theorem C4_created_or_stopped_deleted_without_kill_witness :
    taskDeletes (ContainerRemoveEx rtStopped true 0).log = [(false, none)] ∧
    ((none : Option Err) = none →
      (ContainerRemoveEx rtStopped true 0).log =
        [Event.taskLookup none, Event.taskStatus (Except.ok Stopped), Event.taskDelete false none,
          Event.imageLookup none, Event.containerDelete true none] ∧
      ((none : Option Err) = none → (ContainerRemoveEx rtStopped true 0).err = none)) ∧
    ContainerRemoveEx rtStopped true 0 = ContainerRemoveEx rtStopped false 0 :=
  C4_created_or_stopped_deleted_without_kill rtStopped true 0 1 2 3 4 5 Stopped none none none
    rfl rfl (Or.inr rfl) rfl rfl rfl

/-! ## Teardown: container without a task -/

/-- C7: when the task lookup fails with NotFound, `ContainerRemoveEx`, for
either value of `force`, makes no task-status and no task-delete call, makes
exactly one container-delete call (after the image lookup) and returns exactly
the result of that container delete. -/
theorem C7_no_task_goes_straight_to_container_delete {σ : Type} (rt : RuntimeService σ)
    (force : Bool) (s s1 s2 s3 : σ) (e : Err) (iErr cErr : Option Err)
    (hTask : rt.task s = (some e, s1))
    (hNotFound : IsNotFound e = true)
    (hImg : rt.image s1 = (iErr, s2))
    (hCDel : rt.containerDelete iErr.isNone s2 = (cErr, s3)) :
    taskStatuses (ContainerRemoveEx rt force s).log = [] ∧
    taskDeletes (ContainerRemoveEx rt force s).log = [] ∧
    containerDeletes (ContainerRemoveEx rt force s).log = [(iErr.isNone, cErr)] ∧
    (ContainerRemoveEx rt force s).err = cErr ∧
    (ContainerRemoveEx rt force s).log =
      [Event.taskLookup (some e), Event.imageLookup iErr,
        Event.containerDelete iErr.isNone cErr] := by
  have hrun : ContainerRemoveEx rt force s =
      ⟨cErr, s3, [Event.taskLookup (some e), Event.imageLookup iErr,
        Event.containerDelete iErr.isNone cErr]⟩ := by
    simp [ContainerRemoveEx, containerRemove, hTask, hNotFound, hImg, hCDel]
  rw [hrun]
  simp [taskStatuses, taskDeletes, containerDeletes]

/-- C7 at a container without a task, whose container delete fails. -/
theorem C7_no_task_goes_straight_to_container_delete_witness :
    taskStatuses (ContainerRemoveEx rtNoTask true 0).log = [] ∧
    taskDeletes (ContainerRemoveEx rtNoTask true 0).log = [] ∧
    containerDeletes (ContainerRemoveEx rtNoTask true 0).log = [(false, some errUnavailable)] ∧
    (ContainerRemoveEx rtNoTask true 0).err = some errUnavailable ∧
    (ContainerRemoveEx rtNoTask true 0).log =
      [Event.taskLookup (some errNotFound), Event.imageLookup (some errNotFound),
        Event.containerDelete false (some errUnavailable)] :=
  C7_no_task_goes_straight_to_container_delete rtNoTask true 0 1 2 3 errNotFound
    (some errNotFound) (some errUnavailable) rfl rfl rfl rfl

/-! ## Teardown: snapshot cleanup -/

/-- C6: whenever `ContainerRemoveEx` reaches container deletion, on the no-task
path and on the path after a task delete that returned success or NotFound, it
makes the image lookup and then the container delete, whose snapshot-cleanup
option is set exactly when the image lookup returned no error; the call returns
the container delete's outcome, so a failed image lookup is neither returned
nor does it prevent the delete.  The same holds of `containerRemove` from any
state, and in every run each container delete directly follows an image lookup
and each image lookup is directly followed by the final container delete. -/
theorem C6_snapshot_cleanup_iff_image_found {σ : Type} (rt : RuntimeService σ)
    (force : Bool) (s : σ) :
    (∀ e s1 iErr s2 cErr s3, rt.task s = (some e, s1) → IsNotFound e = true →
      rt.image s1 = (iErr, s2) → rt.containerDelete iErr.isNone s2 = (cErr, s3) →
      (ContainerRemoveEx rt force s).log =
        [Event.taskLookup (some e), Event.imageLookup iErr,
          Event.containerDelete iErr.isNone cErr] ∧
      (ContainerRemoveEx rt force s).err = cErr ∧
      (ContainerRemoveEx rt force s).state = s3) ∧
    (∀ st k dErr s1 s2 s3 iErr s4 cErr s5, rt.task s = (none, s1) →
      rt.status s1 = (Except.ok st, s2) →
      ((st = Created ∨ st = Stopped) ∧ k = false ∨
        (st ≠ Created ∧ st ≠ Stopped) ∧ force = true ∧ k = true) →
      rt.taskDelete k s2 = (dErr, s3) →
      (dErr = none ∨ ∃ e, dErr = some e ∧ IsNotFound e = true) →
      rt.image s3 = (iErr, s4) → rt.containerDelete iErr.isNone s4 = (cErr, s5) →
      (ContainerRemoveEx rt force s).log =
        [Event.taskLookup none, Event.taskStatus (Except.ok st), Event.taskDelete k dErr,
          Event.imageLookup iErr, Event.containerDelete iErr.isNone cErr] ∧
      (ContainerRemoveEx rt force s).err = cErr ∧
      (ContainerRemoveEx rt force s).state = s5) ∧
    (∀ (s0 : σ) (log0 : List Event) iErr s1 cErr s2, rt.image s0 = (iErr, s1) →
      rt.containerDelete iErr.isNone s1 = (cErr, s2) →
      containerRemove rt s0 log0 =
        ⟨cErr, s2, log0 ++ [Event.imageLookup iErr, Event.containerDelete iErr.isNone cErr]⟩ ∧
      (iErr.isNone = true ↔ iErr = none)) ∧
    (∀ n c e, (ContainerRemoveEx rt force s).log[n]? = some (Event.containerDelete c e) →
      ∃ m i, n = m + 1 ∧ (ContainerRemoveEx rt force s).log[m]? = some (Event.imageLookup i) ∧
        (c = true ↔ i = none)) ∧
    (∀ n i, (ContainerRemoveEx rt force s).log[n]? = some (Event.imageLookup i) →
      ∃ e, (ContainerRemoveEx rt force s).log[n + 1]? =
          some (Event.containerDelete i.isNone e) ∧
        (ContainerRemoveEx rt force s).log.length = n + 2 ∧
        (ContainerRemoveEx rt force s).err = e) := by
  refine ⟨?_, ?_, ?_, ?_⟩
  · intro e s1 iErr s2 cErr s3 hT hnf hI hC
    have hrun : ContainerRemoveEx rt force s =
        ⟨cErr, s3, [Event.taskLookup (some e), Event.imageLookup iErr,
          Event.containerDelete iErr.isNone cErr]⟩ := by
      simp [ContainerRemoveEx, containerRemove, hT, hnf, hI, hC]
    rw [hrun]
    exact ⟨rfl, rfl, rfl⟩
  · intro st k dErr s1 s2 s3 iErr s4 cErr s5 hT hS hk hD hd hI hC
    have hrun : ContainerRemoveEx rt force s =
        ⟨cErr, s5, [Event.taskLookup none, Event.taskStatus (Except.ok st),
          Event.taskDelete k dErr, Event.imageLookup iErr,
          Event.containerDelete iErr.isNone cErr]⟩ := by
      rcases hk with ⟨hIdle, rfl⟩ | ⟨⟨hc, hs⟩, rfl, rfl⟩
      · rcases hd with rfl | ⟨e, rfl, hnf⟩
        · simp [ContainerRemoveEx, taskRemove, containerRemove, hT, hS, hIdle, hD, hI, hC]
        · simp [ContainerRemoveEx, taskRemove, containerRemove, hT, hS, hIdle, hD, hnf, hI, hC]
      · rcases hd with rfl | ⟨e, rfl, hnf⟩
        · simp [ContainerRemoveEx, taskRemove, containerRemove, hT, hS, hc, hs, hD, hI, hC]
        · simp [ContainerRemoveEx, taskRemove, containerRemove, hT, hS, hc, hs, hD, hnf, hI, hC]
    rw [hrun]
    exact ⟨rfl, rfl, rfl⟩
  · intro s0 log0 iErr s1 cErr s2 hI hC
    refine ⟨?_, ?_⟩
    · simp [containerRemove, hI, hC]
    · cases iErr <;> simp
  · rcases ContainerRemoveEx_shape rt force s with
      ⟨e, hl, _, he⟩ | ⟨e, i, c, hl, _, he⟩ | ⟨e, hl, he⟩ | ⟨st, hl, he⟩ |
      ⟨st, k, e, hl, _, he⟩ | ⟨st, k, d, i, c, hl, _, he⟩
    all_goals
      rw [hl, he]
      refine ⟨?_, ?_⟩
    all_goals
      intro n
      rcases n with _ | _ | _ | _ | _ | n <;> simp

/-- C6 at a container with a stopped task whose image lookup fails: the task is
deleted without kill and the container is deleted without snapshot cleanup,
successfully. -/
theorem C6_snapshot_cleanup_iff_image_found_witness :
    (ContainerRemoveEx rtStoppedNoImage false 0).log =
      [Event.taskLookup none, Event.taskStatus (Except.ok Stopped), Event.taskDelete false none,
        Event.imageLookup (some errNotFound), Event.containerDelete false none] ∧
    (ContainerRemoveEx rtStoppedNoImage false 0).err = none ∧
    (ContainerRemoveEx rtStoppedNoImage false 0).state = 5 :=
  (C6_snapshot_cleanup_iff_image_found rtStoppedNoImage false 0).2.1
    Stopped false none 1 2 3 (some errNotFound) 4 none 5 rfl rfl
    (Or.inl ⟨Or.inr rfl, rfl⟩) rfl (Or.inl rfl) rfl rfl

/-! ## Teardown: fatal conditions and ordering -/

/-- C8: a task lookup failing with an error other than NotFound, a failing
status fetch, and a task delete (forced or not) failing with an error other
than NotFound each abort `ContainerRemoveEx`: it returns exactly that error and
the failed call is its last, with no image lookup and no container delete.
Conversely, whenever a container delete is made it is the last call of the run,
and before it there is a task lookup that returned NotFound or a task delete
that returned success or NotFound. -/
theorem C8_fatal_errors_abort_before_container_delete {σ : Type} (rt : RuntimeService σ)
    (force : Bool) (s : σ) :
    (∀ e s1, rt.task s = (some e, s1) → IsNotFound e = false →
      (ContainerRemoveEx rt force s).err = some e ∧
      (ContainerRemoveEx rt force s).log = [Event.taskLookup (some e)] ∧
      containerDeletes (ContainerRemoveEx rt force s).log = [] ∧
      imageLookups (ContainerRemoveEx rt force s).log = []) ∧
    (∀ e s1 s2, rt.task s = (none, s1) → rt.status s1 = (Except.error e, s2) →
      (ContainerRemoveEx rt force s).err = some e ∧
      (ContainerRemoveEx rt force s).log =
        [Event.taskLookup none, Event.taskStatus (Except.error e)] ∧
      containerDeletes (ContainerRemoveEx rt force s).log = [] ∧
      imageLookups (ContainerRemoveEx rt force s).log = []) ∧
    (∀ st e s1 s2 s3, rt.task s = (none, s1) → rt.status s1 = (Except.ok st, s2) →
      (st = Created ∨ st = Stopped) →
      rt.taskDelete false s2 = (some e, s3) → IsNotFound e = false →
      (ContainerRemoveEx rt force s).err = some e ∧
      (ContainerRemoveEx rt force s).log =
        [Event.taskLookup none, Event.taskStatus (Except.ok st),
          Event.taskDelete false (some e)] ∧
      containerDeletes (ContainerRemoveEx rt force s).log = [] ∧
      imageLookups (ContainerRemoveEx rt force s).log = []) ∧
    (∀ st e s1 s2 s3, rt.task s = (none, s1) → rt.status s1 = (Except.ok st, s2) →
      st ≠ Created → st ≠ Stopped → force = true →
      rt.taskDelete true s2 = (some e, s3) → IsNotFound e = false →
      (ContainerRemoveEx rt force s).err = some e ∧
      (ContainerRemoveEx rt force s).log =
        [Event.taskLookup none, Event.taskStatus (Except.ok st),
          Event.taskDelete true (some e)] ∧
      containerDeletes (ContainerRemoveEx rt force s).log = [] ∧
      imageLookups (ContainerRemoveEx rt force s).log = []) ∧
    (∀ n c e, (ContainerRemoveEx rt force s).log[n]? = some (Event.containerDelete c e) →
      (ContainerRemoveEx rt force s).log.length = n + 1 ∧
      ((∃ m e1, m < n ∧
          (ContainerRemoveEx rt force s).log[m]? = some (Event.taskLookup (some e1)) ∧
          IsNotFound e1 = true) ∨
       (∃ m k d, m < n ∧
          (ContainerRemoveEx rt force s).log[m]? = some (Event.taskDelete k d) ∧
          (d = none ∨ ∃ e1, d = some e1 ∧ IsNotFound e1 = true)))) := by
  refine ⟨?_, ?_, ?_, ?_, ?_⟩
  · intro e s1 hT hnf
    have hrun : ContainerRemoveEx rt force s = ⟨some e, s1, [Event.taskLookup (some e)]⟩ := by
      simp [ContainerRemoveEx, hT, hnf]
    rw [hrun]
    simp [containerDeletes, imageLookups]
  · intro e s1 s2 hT hS
    have hrun : ContainerRemoveEx rt force s =
        ⟨some e, s2, [Event.taskLookup none, Event.taskStatus (Except.error e)]⟩ := by
      simp [ContainerRemoveEx, taskRemove, hT, hS]
    rw [hrun]
    simp [containerDeletes, imageLookups]
  · intro st e s1 s2 s3 hT hS hIdle hD hnf
    have hrun : ContainerRemoveEx rt force s =
        ⟨some e, s3, [Event.taskLookup none, Event.taskStatus (Except.ok st),
          Event.taskDelete false (some e)]⟩ := by
      simp [ContainerRemoveEx, taskRemove, hT, hS, hIdle, hD, hnf]
    rw [hrun]
    simp [containerDeletes, imageLookups]
  · intro st e s1 s2 s3 hT hS hc hs hf hD hnf
    subst hf
    have hrun : ContainerRemoveEx rt true s =
        ⟨some e, s3, [Event.taskLookup none, Event.taskStatus (Except.ok st),
          Event.taskDelete true (some e)]⟩ := by
      simp [ContainerRemoveEx, taskRemove, hT, hS, hc, hs, hD, hnf]
    rw [hrun]
    simp [containerDeletes, imageLookups]
  · rcases ContainerRemoveEx_shape rt force s with
      ⟨e, hl, _, _⟩ | ⟨e, i, c, hl, hnf, _⟩ | ⟨e, hl, _⟩ | ⟨st, hl, _⟩ |
      ⟨st, k, e, hl, _, _⟩ | ⟨st, k, d, i, c, hl, hd, _⟩
    all_goals
      intro n c0 e0 h
      rw [hl] at h ⊢
      rcases n with _ | _ | _ | _ | _ | n <;> simp at h
    · exact ⟨rfl, Or.inl ⟨0, e, by omega, by simp, hnf⟩⟩
    · exact ⟨rfl, Or.inr ⟨2, k, d, by omega, by simp, hd⟩⟩

/-- C8 at a container whose forced task delete fails: the error is returned and
the task delete is the last call. -/
theorem C8_fatal_errors_abort_before_container_delete_witness :
    (ContainerRemoveEx rtKillFails true 0).err = some errUnavailable ∧
    (ContainerRemoveEx rtKillFails true 0).log =
      [Event.taskLookup none, Event.taskStatus (Except.ok Running),
        Event.taskDelete true (some errUnavailable)] ∧
    containerDeletes (ContainerRemoveEx rtKillFails true 0).log = [] ∧
    imageLookups (ContainerRemoveEx rtKillFails true 0).log = [] :=
  (C8_fatal_errors_abort_before_container_delete rtKillFails true 0).2.2.2.1
    Running errUnavailable 1 2 3 rfl rfl (by decide) (by decide) rfl rfl rfl

/-! ## Teardown: NotFound on delete -/

/-- C5, as stated, fails: with a stopped task, when every call succeeds except
the container delete, which returns NotFound, `ContainerRemoveEx` returns that
NotFound error instead of success. -/
theorem C5_container_delete_not_found_is_returned :
    (ContainerRemoveEx rtContainerGone false 0).log =
      [Event.taskLookup none, Event.taskStatus (Except.ok Stopped), Event.taskDelete false none,
        Event.imageLookup none, Event.containerDelete true (some errNotFound)] ∧
    IsNotFound errNotFound = true ∧
    (ContainerRemoveEx rtContainerGone false 0).err = some errNotFound ∧
    (ContainerRemoveEx rtContainerGone false 0).err ≠ none := by
  refine ⟨rfl, rfl, rfl, ?_⟩
  intro h
  cases h

/-- C5, amended: a NotFound error from task delete is absorbed by
`ContainerRemoveEx`: the run goes on to the container delete and returns its
outcome, so a run whose only failing calls are task deletes returning NotFound
returns success.  An error from container delete, NotFound included, is
returned to the caller as it is. -/
theorem C5_task_delete_not_found_absorbed {σ : Type} (rt : RuntimeService σ)
    (force : Bool) (s : σ) :
    (∀ k e, Event.taskDelete k (some e) ∈ (ContainerRemoveEx rt force s).log →
      IsNotFound e = true →
      ∃ c r, (ContainerRemoveEx rt force s).log.getLast? = some (Event.containerDelete c r) ∧
        (ContainerRemoveEx rt force s).err = r) ∧
    ((∀ ev ∈ (ContainerRemoveEx rt force s).log, ev.failure ≠ none →
        ∃ k e, ev = Event.taskDelete k (some e) ∧ IsNotFound e = true) →
      (∃ k e, Event.taskDelete k (some e) ∈ (ContainerRemoveEx rt force s).log ∧
        IsNotFound e = true) →
      (ContainerRemoveEx rt force s).err = none) ∧
    (∀ c e, Event.containerDelete c (some e) ∈ (ContainerRemoveEx rt force s).log →
      (ContainerRemoveEx rt force s).err = some e) := by
  rcases ContainerRemoveEx_shape rt force s with
    ⟨e, hl, hnf, he⟩ | ⟨e, i, c, hl, hnf, he⟩ | ⟨e, hl, he⟩ | ⟨st, hl, he⟩ |
    ⟨st, k, e, hl, hnf, he⟩ | ⟨st, k, d, i, c, hl, hd, he⟩
  all_goals
    rw [hl, he]
    refine ⟨?_, ?_, ?_⟩
  all_goals simp [Event.failure]
  all_goals first
    | exact ⟨fun _ _ h => h.symm, fun _ _ h => h.symm⟩
    | exact hnf
    | (intro _ _ hc _; exact hc)
    | (rintro (⟨e1, ⟨-, rfl⟩, h1⟩ | ⟨e1, ⟨-, rfl⟩, h1⟩) <;> simp [hnf] at h1)

/-- C5 amended, at a container with a running task whose forced task delete
returns NotFound: the call succeeds. -/
theorem C5_task_delete_not_found_absorbed_witness :
    Event.taskDelete true (some errNotFound) ∈ (ContainerRemoveEx rtTaskGone true 0).log ∧
    IsNotFound errNotFound = true ∧
    ∃ c r, (ContainerRemoveEx rtTaskGone true 0).log.getLast? =
        some (Event.containerDelete c r) ∧
      (ContainerRemoveEx rtTaskGone true 0).err = r :=
  have hmem : Event.taskDelete true (some errNotFound) ∈
      (ContainerRemoveEx rtTaskGone true 0).log := by
    simp [ContainerRemoveEx, taskRemove, containerRemove, rtTaskGone, scripted, Running, Created,
      Stopped, errNotFound, IsNotFound]
  ⟨hmem, rfl,
    (C5_task_delete_not_found_absorbed rtTaskGone true 0).1 true errNotFound hmem rfl⟩

/-! ## Image pull: reference normalisation -/

/-- A string has the one-character string `c` as a substring exactly when `c`
is one of its characters. -/
theorem containsChars_singleton (c : Char) (l : List Char) :
    containsChars l [c] = true ↔ c ∈ l := by
  induction l with
  | nil => simp [containsChars, hasPrefixChars]
  | cons a l ih =>
    simp only [containsChars, hasPrefixChars, Bool.or_eq_true, Bool.and_true, beq_iff_eq, ih,
      List.mem_cons]
    constructor
    · rintro (h | h)
      · exact Or.inl h.symm
      · exact Or.inr h
    · rintro (h | h)
      · exact Or.inl h.symm
      · exact Or.inr h

/-- The normalisation of a reference without `:` appends `:latest`. -/
theorem normalizeRef_of_not_mem (ref : String) (h : ':' ∉ ref.data) :
    normalizeRef ref = ref ++ ":latest" := by
  have hc : containsChars ref.data [':'] = false := by
    rw [Bool.eq_false_iff, Ne, containsChars_singleton]
    exact h
  have hs : stringsContains ref ":" = false := hc
  simp [normalizeRef, hs]

/-- The normalisation of a reference with `:` is the reference. -/
theorem normalizeRef_of_mem (ref : String) (h : ':' ∈ ref.data) : normalizeRef ref = ref := by
  have hc : containsChars ref.data [':'] = true := (containsChars_singleton ':' ref.data).2 h
  have hs : stringsContains ref ":" = true := hc
  simp [normalizeRef, hs]

/-- The normalised reference has a `:`. -/
theorem mem_normalizeRef (ref : String) : ':' ∈ (normalizeRef ref).data := by
  by_cases h : ':' ∈ ref.data
  · rw [normalizeRef_of_mem ref h]
    exact h
  · rw [normalizeRef_of_not_mem ref h]
    have : (ref ++ ":latest").data = ref.data ++ ":latest".data := String.data_append ref _
    rw [this]
    exact List.mem_append_right _ (by decide)

/-- C9: the reference that `ImagePullEx` gives to the Runtime Service pull call
and to the progress job is `ref ++ ":latest"` when `ref` has no `:` and `ref`
itself when it has one: the image, the error and the world state that the call
returns are those of the pull of that reference, and the job and the pull
recorded on the caller's path carry it.  This normalisation is idempotent and
its result always has a `:`. -/
theorem C9_ref_gets_latest_tag_unless_tagged {σ : Type} (rt : RuntimeService σ)
    (ref platform : String) (s s1 : σ) (img : Image) (pErr : Option Err)
    (hPull : rt.pull (if ':' ∈ ref.data then ref else ref ++ ":latest") platform s =
      ((img, pErr), s1)) :
    ((ImagePullEx rt ref platform s).image = img ∧
      (ImagePullEx rt ref platform s).err = pErr ∧
      (ImagePullEx rt ref platform s).state = s1 ∧
      ∃ tail, (ImagePullEx rt ref platform s).log =
        [Event.withCancel, Event.newJobs (if ':' ∈ ref.data then ref else ref ++ ":latest"),
          Event.goShowProgress,
          Event.pull (if ':' ∈ ref.data then ref else ref ++ ":latest") platform img pErr] ++
          tail) ∧
    (∃ img e tail, (ImagePullEx rt ref platform s).log =
      [Event.withCancel, Event.newJobs (normalizeRef ref), Event.goShowProgress,
        Event.pull (normalizeRef ref) platform img e] ++ tail) ∧
    (':' ∉ ref.data → normalizeRef ref = ref ++ ":latest") ∧
    (':' ∈ ref.data → normalizeRef ref = ref) ∧
    normalizeRef (normalizeRef ref) = normalizeRef ref ∧
    ':' ∈ (normalizeRef ref).data := by
  have hnorm : normalizeRef ref = if ':' ∈ ref.data then ref else ref ++ ":latest" := by
    by_cases h : ':' ∈ ref.data
    · rw [if_pos h, normalizeRef_of_mem ref h]
    · rw [if_neg h, normalizeRef_of_not_mem ref h]
  rw [← hnorm] at hPull ⊢
  refine ⟨?_, ?_, normalizeRef_of_not_mem ref, normalizeRef_of_mem ref,
    normalizeRef_of_mem _ (mem_normalizeRef ref), mem_normalizeRef ref⟩
  · cases pErr with
    | none => exact ⟨by simp [ImagePullEx, hPull], by simp [ImagePullEx, hPull],
        by simp [ImagePullEx, hPull],
        [Event.stopProgress, Event.recvProgressCh], by simp [ImagePullEx, hPull]⟩
    | some e => exact ⟨by simp [ImagePullEx, hPull], by simp [ImagePullEx, hPull],
        by simp [ImagePullEx, hPull], [Event.stopProgress], by simp [ImagePullEx, hPull]⟩
  · cases pErr with
    | none =>
      exact ⟨img, none, [Event.stopProgress, Event.recvProgressCh],
        by simp [ImagePullEx, hPull]⟩
    | some e => exact ⟨img, some e, [Event.stopProgress], by simp [ImagePullEx, hPull]⟩

/-- C9 at the untagged reference `alpine`, with a Runtime Service that knows
`alpine:latest` only: the pull succeeds, so it was given `alpine:latest`. -/
theorem C9_ref_gets_latest_tag_unless_tagged_witness :
    (ImagePullEx rtPullTagged "alpine" "linux/amd64" 0).image = some 7 ∧
    (ImagePullEx rtPullTagged "alpine" "linux/amd64" 0).err = none ∧
    (ImagePullEx rtPullTagged "alpine" "linux/amd64" 0).state = 1 ∧
    ∃ tail, (ImagePullEx rtPullTagged "alpine" "linux/amd64" 0).log =
      [Event.withCancel, Event.newJobs "alpine:latest", Event.goShowProgress,
        Event.pull "alpine:latest" "linux/amd64" (some 7) none] ++ tail :=
  (C9_ref_gets_latest_tag_unless_tagged rtPullTagged "alpine" "linux/amd64" 0 1 (some 7) none
    (by decide)).1

/-! ## Image pull: cancel and join -/

/-- C2, as stated, fails: when the pull returns an error, `ImagePullEx` cancels
the reporter and returns the error without receiving on `progressCh`. -/
theorem C2_pull_error_returns_without_join :
    (ImagePullEx rtPullFails "alpine" "linux/amd64" 0).err = some errUnavailable ∧
    (ImagePullEx rtPullFails "alpine" "linux/amd64" 0).log =
      [Event.withCancel, Event.newJobs "alpine:latest", Event.goShowProgress,
        Event.pull "alpine:latest" "linux/amd64" none (some errUnavailable),
        Event.stopProgress] ∧
    Event.recvProgressCh ∉ (ImagePullEx rtPullFails "alpine" "linux/amd64" 0).log := by
  have hlog : (ImagePullEx rtPullFails "alpine" "linux/amd64" 0).log =
      [Event.withCancel, Event.newJobs "alpine:latest", Event.goShowProgress,
        Event.pull "alpine:latest" "linux/amd64" none (some errUnavailable),
        Event.stopProgress] := by
    rw [← show normalizeRef "alpine" = "alpine:latest" from
      normalizeRef_of_not_mem "alpine" (by decide)]
    rfl
  refine ⟨rfl, hlog, ?_⟩
  rw [hlog]
  simp

/-- C2, amended: on every outcome of the pull, `ImagePullEx` cancels the
reporter's context right after the pull call returns.  When the pull succeeded
it then receives on `progressCh` before returning the image; when the pull
failed it returns the pull's image and error right after the cancellation,
without receiving on `progressCh`. -/
theorem C2_cancel_always_join_on_success {σ : Type} (rt : RuntimeService σ)
    (ref platform : String) (s s1 : σ) (img : Image) (pErr : Option Err)
    (hPull : rt.pull (normalizeRef ref) platform s = ((img, pErr), s1)) :
    (pErr = none →
      (ImagePullEx rt ref platform s).log =
        [Event.withCancel, Event.newJobs (normalizeRef ref), Event.goShowProgress,
          Event.pull (normalizeRef ref) platform img none, Event.stopProgress,
          Event.recvProgressCh] ∧
      (ImagePullEx rt ref platform s).err = none ∧
      (ImagePullEx rt ref platform s).image = img) ∧
    (∀ e, pErr = some e →
      (ImagePullEx rt ref platform s).log =
        [Event.withCancel, Event.newJobs (normalizeRef ref), Event.goShowProgress,
          Event.pull (normalizeRef ref) platform img (some e), Event.stopProgress] ∧
      Event.recvProgressCh ∉ (ImagePullEx rt ref platform s).log ∧
      (ImagePullEx rt ref platform s).err = some e ∧
      (ImagePullEx rt ref platform s).image = img) := by
  constructor
  · intro h
    subst h
    simp [ImagePullEx, hPull]
  · intro e h
    subst h
    simp [ImagePullEx, hPull]

/-- C2 amended, at a successful pull of `alpine`. -/
theorem C2_cancel_always_join_on_success_witness :
    (ImagePullEx rtRunning "alpine" "linux/amd64" 0).log =
      [Event.withCancel, Event.newJobs (normalizeRef "alpine"), Event.goShowProgress,
        Event.pull (normalizeRef "alpine") "linux/amd64" (some 1) none, Event.stopProgress,
        Event.recvProgressCh] ∧
    (ImagePullEx rtRunning "alpine" "linux/amd64" 0).err = none ∧
    (ImagePullEx rtRunning "alpine" "linux/amd64" 0).image = some 1 :=
  (C2_cancel_always_join_on_success rtRunning "alpine" "linux/amd64" 0 1 (some 1) none rfl).1 rfl

/-! ## Address detection -/

/-- A list starts with `p` exactly when it is `p` followed by what is left
after dropping `p.length` elements. -/
theorem hasPrefixChars_iff (l p : List Char) :
    hasPrefixChars l p = true ↔ l = p ++ l.drop p.length := by
  induction p generalizing l with
  | nil => simp [hasPrefixChars]
  | cons a p ih =>
    cases l with
    | nil => simp [hasPrefixChars]
    | cons b l =>
      simp only [hasPrefixChars, Bool.and_eq_true, beq_iff_eq, ih, List.length_cons,
        List.drop_succ_cons, List.cons_append, List.cons.injEq]

/-- Trimming the prefix off a string built as prefix plus rest gives the rest. -/
theorem stringsTrimPrefix_append (p rest : String) : stringsTrimPrefix (p ++ rest) p = rest := by
  have hd : (p ++ rest).data = p.data ++ rest.data := String.data_append p rest
  have hp : hasPrefixChars (p ++ rest).data p.data = true := by
    rw [hasPrefixChars_iff, hd]
    simp
  unfold stringsTrimPrefix
  rw [if_pos hp, hd, List.drop_left]

/-- Trimming leaves a string that does not start with the prefix as it is. -/
theorem stringsTrimPrefix_unchanged (s p : String) (h : ∀ rest, s ≠ p ++ rest) :
    stringsTrimPrefix s p = s := by
  have hp : hasPrefixChars s.data p.data = false := by
    rw [Bool.eq_false_iff, Ne, hasPrefixChars_iff]
    intro hs
    apply h ⟨s.data.drop p.data.length⟩
    apply String.ext
    rw [String.data_append]
    exact hs
  simp [stringsTrimPrefix, hp]

/-- The loop returns an address exactly when it is the first accessible one. -/
theorem detectLoop_ok_iff (acc : String → Bool) (l : List String) (a : String) :
    detectLoop acc l = Except.ok a ↔
      ∃ pre post, l = pre ++ a :: post ∧ acc a = true ∧ ∀ b ∈ pre, acc b = false := by
  induction l with
  | nil => simp [detectLoop]
  | cons x l ih =>
    unfold detectLoop
    by_cases hx : acc x = true
    · simp only [hx, if_true, Except.ok.injEq]
      constructor
      · rintro rfl
        exact ⟨[], l, rfl, hx, by simp⟩
      · rintro ⟨pre, post, hl, _, hpre⟩
        cases pre with
        | nil =>
          simp only [List.nil_append, List.cons.injEq] at hl
          exact hl.1
        | cons y pre =>
          simp only [List.cons_append, List.cons.injEq] at hl
          have := hpre y (List.mem_cons_self _ _)
          rw [← hl.1, hx] at this
          cases this
    · have hx2 : acc x = false := by simpa using hx
      simp only [hx2, Bool.false_eq_true, if_false, ih]
      constructor
      · rintro ⟨pre, post, hl, ha, hpre⟩
        refine ⟨x :: pre, post, by simp [hl], ha, ?_⟩
        intro b hb
        rcases List.mem_cons.1 hb with rfl | hb
        · exact hx2
        · exact hpre b hb
      · rintro ⟨pre, post, hl, ha, hpre⟩
        cases pre with
        | nil =>
          simp only [List.nil_append, List.cons.injEq] at hl
          rw [← hl.1, hx2] at ha
          cases ha
        | cons y pre =>
          simp only [List.cons_append, List.cons.injEq] at hl
          exact ⟨pre, post, hl.2, ha, fun b hb => hpre b (List.mem_cons_of_mem _ hb)⟩

/-- The loop fails, with the "cannot detect address" error, exactly when no
candidate is accessible. -/
theorem detectLoop_error_iff (acc : String → Bool) (l : List String) (e : Err) :
    detectLoop acc l = Except.error e ↔
      e = cannotDetectAddressError ∧ ∀ b ∈ l, acc b = false := by
  induction l with
  | nil =>
    simp only [detectLoop, Except.error.injEq, List.not_mem_nil, false_implies, implies_true,
      and_true]
    exact eq_comm
  | cons x l ih =>
    unfold detectLoop
    by_cases hx : acc x = true
    · simp [hx]
    · have hx2 : acc x = false := by simpa using hx
      simp [hx2, ih]

/-- C10: `detectAddress` returns the first accessible element of its candidate
list and fails, with the "cannot detect address" error, exactly when no
candidate is accessible.  The candidate list is the explicit address with one
leading `unix://` stripped when the address is not empty, and otherwise the two
well-known socket paths in their order.  So an accessible explicit address is
returned whatever the accessibility of the well-known paths, and with an
inaccessible explicit address the call fails without trying them. -/
theorem C10_detectAddress_first_accessible_candidate (acc : String → Bool) (opts : Options) :
    (∃ cands : List String,
      (opts.Address = "" →
        cands = ["/run/containerd/containerd.sock",
          "/var/run/docker/containerd/containerd.sock"]) ∧
      (∀ rest, opts.Address = "unix://" ++ rest → cands = [rest]) ∧
      (opts.Address ≠ "" → (∀ rest, opts.Address ≠ "unix://" ++ rest) →
        cands = [opts.Address]) ∧
      (∀ a, detectAddress acc opts = Except.ok a ↔
        ∃ pre post, cands = pre ++ a :: post ∧ acc a = true ∧ ∀ b ∈ pre, acc b = false) ∧
      (detectAddress acc opts = Except.error cannotDetectAddressError ↔
        ∀ b ∈ cands, acc b = false) ∧
      (∀ e, detectAddress acc opts = Except.error e → e = cannotDetectAddressError)) ∧
    (opts.Address = "" →
      detectAddress acc opts =
        if acc "/run/containerd/containerd.sock" then
          Except.ok "/run/containerd/containerd.sock"
        else if acc "/var/run/docker/containerd/containerd.sock" then
          Except.ok "/var/run/docker/containerd/containerd.sock"
        else Except.error cannotDetectAddressError) ∧
    (∀ rest, opts.Address = "unix://" ++ rest →
      detectAddress acc opts =
        if acc rest then Except.ok rest else Except.error cannotDetectAddressError) ∧
    (opts.Address ≠ "" → (∀ rest, opts.Address ≠ "unix://" ++ rest) →
      detectAddress acc opts =
        if acc opts.Address then Except.ok opts.Address
        else Except.error cannotDetectAddressError) := by
  have hne : ∀ rest : String, ("" : String) ≠ "unix://" ++ rest := by
    intro rest h
    have hl := congrArg String.length h
    rw [String.length_append] at hl
    have h7 : "unix://".length = 7 := by decide
    have h0 : "".length = 0 := by decide
    omega
  by_cases hA : opts.Address = ""
  · have hdet : detectAddress acc opts = detectLoop acc wellKnownAddresses := by
      simp [detectAddress, hA]
    refine ⟨⟨wellKnownAddresses, fun _ => rfl, ?_, fun h => absurd hA h, ?_, ?_, ?_⟩,
      ?_, ?_, fun h => absurd hA h⟩
    · intro rest h
      exact absurd (hA.symm.trans h) (hne rest)
    · intro a
      rw [hdet]
      exact detectLoop_ok_iff acc _ a
    · rw [hdet, detectLoop_error_iff]
      simp
    · intro e he
      rw [hdet, detectLoop_error_iff] at he
      exact he.1
    · intro _
      rw [hdet]
      rfl
    · intro rest h
      exact absurd (hA.symm.trans h) (hne rest)
  · have hlen : opts.Address.length > 0 := by
      rcases hO : opts.Address with ⟨l⟩
      cases l with
      | nil => exact absurd hO hA
      | cons c l => simp [String.length]
    have hdet : detectAddress acc opts =
        detectLoop acc [stringsTrimPrefix opts.Address "unix://"] := by
      simp [detectAddress, hlen]
    have hone : ∀ x : String, detectLoop acc [x] =
        if acc x then Except.ok x else Except.error cannotDetectAddressError := fun _ => rfl
    refine ⟨⟨[stringsTrimPrefix opts.Address "unix://"], fun h => absurd h hA, ?_, ?_, ?_, ?_,
      ?_⟩, fun h => absurd h hA, ?_, ?_⟩
    · intro rest h
      rw [h, stringsTrimPrefix_append]
    · intro _ h
      rw [stringsTrimPrefix_unchanged _ _ h]
    · intro a
      rw [hdet]
      exact detectLoop_ok_iff acc _ a
    · rw [hdet, detectLoop_error_iff]
      simp
    · intro e he
      rw [hdet, detectLoop_error_iff] at he
      exact he.1
    · intro rest h
      rw [hdet, hone, h, stringsTrimPrefix_append]
    · intro _ h
      rw [hdet, hone, stringsTrimPrefix_unchanged _ _ h]

/-- C10 at the explicit address `unix:///tmp/c.sock`: it is returned, stripped,
when it alone is accessible, and the call fails when it alone is not. -/
theorem C10_detectAddress_first_accessible_candidate_witness :
    detectAddress (fun a => a == "/tmp/c.sock") ⟨"unix:///tmp/c.sock", ""⟩ =
      Except.ok "/tmp/c.sock" ∧
    detectAddress (fun a => a != "/tmp/c.sock") ⟨"unix:///tmp/c.sock", ""⟩ =
      Except.error cannotDetectAddressError :=
  ⟨(C10_detectAddress_first_accessible_candidate (fun a => a == "/tmp/c.sock")
      ⟨"unix:///tmp/c.sock", ""⟩).2.2.1 "/tmp/c.sock" rfl,
   (C10_detectAddress_first_accessible_candidate (fun a => a != "/tmp/c.sock")
      ⟨"unix:///tmp/c.sock", ""⟩).2.2.1 "/tmp/c.sock" rfl⟩

end Containerd
